import Mathlib

/-!
# Verification of the swerv-ISS RISC-V simulator core

Shallow embedding of the core of the `swerv-ISS` RISC-V instruction-set
simulator (`src/Core.hpp`): a single hart parameterized by a register width
`W` (`mxlen`), with an integer register file, a CSR file, a flat byte memory,
and the trap-initiation machinery, together with the semantic handlers for
the RV32/RV64 I, M and C instructions that the claims refer to.

The repository ships only the class declaration `Core.hpp` under `src/`; the
member-function bodies (Core.cpp) and the `IntRegs`, `CsRegs` and `Memory`
components live in files that are not part of `src/`.  Definitions for those
parts are modelled from the specification and are marked as such in their
doc comments.  `peekIntReg` is the one member whose body appears verbatim in
`src/Core.hpp`.

Machine words of width `W` are represented as `Nat` values, reduced modulo
`2 ^ W` wherever the C++ code would wrap; signed views go through `Int`.
-/

namespace WdRiscv

/-! ## Word-level helpers -/

/-- Interpret a `W`-bit unsigned value as a signed two's-complement integer
(the C++ cast from `URV` to `SRV`). -/
def toSigned (W a : Nat) : Int :=
  if a < 2 ^ (W - 1) then (a : Int) else (a : Int) - 2 ^ W

/-- Reduce an integer to a `W`-bit unsigned machine word (the C++ cast from
`SRV` back to `URV`, i.e. two's-complement wrap-around). -/
def toWord (W : Nat) (i : Int) : Nat :=
  (i % (2 ^ W : Int)).toNat

/-- Bitwise complement within a `W`-bit word: `~m` at width `W`. -/
def wNot (W m : Nat) : Nat :=
  (2 ^ W - 1) ^^^ m

/-- Sign-extend the low `n` bits of `v` to a `W`-bit word. -/
def signExtend (W n v : Nat) : Nat :=
  toWord W (toSigned n (v % 2 ^ n))

/-! ## Integer register file

Modelled from the spec: the `IntRegs` component is not under `src/`.
Spec 4.2: operations `read(i) -> W-bit word` and `write(i, v)`; writes to
index 0 are discarded (spec 9: enforced by checking the index on write). -/

/-- Modelled from the spec: `IntRegs::read` — reads return the stored value
(missing `IntRegs.hpp`); out-of-range reads yield 0. -/
def intRead (regs : List Nat) (i : Nat) : Nat :=
  regs.getD i 0

/-- Modelled from the spec: `IntRegs::write` — writes to index 0 are
discarded (missing `IntRegs.hpp`). -/
def intWrite (regs : List Nat) (i v : Nat) : List Nat :=
  if i = 0 then regs else regs.set i v

/-! ## Memory

Modelled from the spec: the `Memory` component is not under `src/`.
Spec 4.1: bounded-address little-endian loads/stores at natural alignment;
out-of-range fails with an access fault, misaligned with a misaligned fault.
The range check is performed first: spec scenario 4 reports an access fault
for an address (14, word access, size 16) that is both out of range and
misaligned. -/

inductive MemFault where
  | outOfRange
  | misaligned
deriving DecidableEq

/-- Little-endian read of `n` bytes starting at `addr` (no checks). -/
def leRead (mem : List Nat) (addr : Nat) : Nat → Nat
  | 0 => 0
  | n + 1 => mem.getD addr 0 + 256 * leRead mem (addr + 1) n

/-- Little-endian write of the low `n` bytes of `v` at `addr` (no checks). -/
def leWrite (mem : List Nat) (addr : Nat) (v : Nat) : Nat → List Nat
  | 0 => mem
  | n + 1 => leWrite (mem.set addr (v % 256)) (addr + 1) (v / 256) n

/-- Modelled from the spec: `Memory` typed load of `n` bytes — range check,
then alignment check, then little-endian read (missing `Memory.hpp`). -/
def memRead (mem : List Nat) (addr n : Nat) : Except MemFault Nat :=
  if mem.length < addr + n then .error .outOfRange
  else if addr % n ≠ 0 then .error .misaligned
  else .ok (leRead mem addr n)

/-- Modelled from the spec: `Memory` typed store of `n` bytes — same checks
as loads (missing `Memory.hpp`). -/
def memWrite (mem : List Nat) (addr n v : Nat) : Except MemFault (List Nat) :=
  if mem.length < addr + n then .error .outOfRange
  else if addr % n ≠ 0 then .error .misaligned
  else .ok (leWrite mem addr v n)

/-! ## CSR file

Modelled from the spec: the `CsRegs` component is not under `src/`.
Spec 4.3: each recognized CSR carries a current value, a write mask, an
implemented-bits mask and a minimum privilege; `read` fails on an
unimplemented address or insufficient privilege; `write` additionally fails
when the CSR is read-only (`writeMask == 0`) and otherwise stores
`(old & ~mask) | (v & mask)`. -/

structure Csr where
  value : Nat
  writeMask : Nat
  implMask : Nat
  minPriv : Nat
deriving DecidableEq

/-- The CSR file: a sparse mapping from 12-bit CSR address to a record. -/
def CsrFile : Type := Nat → Option Csr

/-- The value a CSR currently holds (0 for an absent address). -/
def csrValue (f : CsrFile) (addr : Nat) : Nat :=
  match f addr with
  | none => 0
  | some c => c.value

/-- Modelled from the spec: `CsRegs::read` (missing `CsRegs.hpp`). -/
def csrRead (f : CsrFile) (addr priv : Nat) : Option Nat :=
  match f addr with
  | none => none
  | some c => if priv < c.minPriv then none else some c.value

/-- Modelled from the spec: `CsRegs::write` (missing `CsRegs.hpp`): fails on
an unimplemented address, insufficient privilege, or a read-only CSR;
otherwise stores `(old & ~writeMask) | (v & writeMask)`. -/
def csrWrite (f : CsrFile) (W addr priv v : Nat) : Option CsrFile :=
  match f addr with
  | none => none
  | some c =>
      if priv < c.minPriv ∨ c.writeMask = 0 then none
      else some (fun a =>
        if a = addr then
          some { c with value := (c.value &&& wNot W c.writeMask) ||| (v &&& c.writeMask) }
        else f a)

/-- Modelled from the spec: the raw CSR update used during trap entry, which
bypasses access checks (spec 4.5.3: trap initiation never itself traps). -/
def rawSetCsr (f : CsrFile) (addr v : Nat) : CsrFile :=
  fun a =>
    if a = addr then
      match f addr with
      | some c => some { c with value := v }
      | none => some { value := v, writeMask := 0, implMask := 0, minPriv := 3 }
    else f a

/-- Machine-mode CSR addresses used by the trap machinery. -/
def MSTATUS : Nat := 0x300
def MTVEC : Nat := 0x305
def MSCRATCH : Nat := 0x340
def MEPC : Nat := 0x341
def MCAUSE : Nat := 0x342
def MTVAL : Nat := 0x343

/-- Privilege modes (spec 3): User=0, Supervisor=1, Machine=3. -/
def userMode : Nat := 0
def supervisorMode : Nat := 1
def machineMode : Nat := 3

/-! ## Hart state -/

/-- The hart state of `Core<URV>` (`src/Core.hpp` members `memory_`,
`intRegs_`, `csRegs_`, `pc_`, `currPc_`, `privilegeMode_`, `mxlen_`). -/
structure Machine where
  mxlen : Nat
  mem : List Nat
  xregs : List Nat
  csrs : CsrFile
  pc : Nat
  currPc : Nat
  priv : Nat

/-- Read integer register `i` of the hart. -/
def readReg (m : Machine) (i : Nat) : Nat :=
  intRead m.xregs i

/-- Read integer register `i` as a signed value (`SRV`). -/
def sreadReg (m : Machine) (i : Nat) : Int :=
  toSigned m.mxlen (readReg m i)

/-- Write integer register `i` of the hart (dropped for `i = 0`). -/
def setReg (m : Machine) (i v : Nat) : Machine :=
  { m with xregs := intWrite m.xregs i v }

/-- `Core::peekIntReg` (body in `src/Core.hpp`): set `val` to the value of
integer register `ix` returning true on success; return false leaving `val`
unmodified if `ix` is out of bounds.  The in/out parameter `val` is
explicit. -/
def peekIntReg (m : Machine) (ix val : Nat) : Bool × Nat :=
  if ix < m.xregs.length then (true, intRead m.xregs ix) else (false, val)

/-! ## Trap initiation -/

/-- Modelled from the spec: the `mstatus` update on trap entry
(spec 4.5.3 steps 4-5, missing `Core.cpp`): save `MIE` (bit 3) into `MPIE`
(bit 7), clear `MIE`, save the current privilege into `MPP` (bits 12:11).
The mask `0x1888` covers bits 3, 7, 11 and 12. -/
def mstatusTrapUpdate (W old priv : Nat) : Nat :=
  (old &&& wNot W 0x1888) ||| (((old >>> 3) &&& 1) <<< 7) ||| ((priv &&& 3) <<< 11)

/-- Modelled from the spec: `Core::initiateTrap` (spec 4.5.3, missing
`Core.cpp`): set `mepc`, `mcause`, `mtval` and `mstatus`, enter machine
mode, and jump to the trap vector (`mtvec.BASE`, or `BASE + 4*cause` for
vectored-mode interrupts). -/
def initiateTrap (m : Machine) (interrupt : Bool) (cause pcToSave info : Nat) : Machine :=
  let W := m.mxlen
  let mcauseVal := (if interrupt then 2 ^ (W - 1) else 0) ||| cause
  let oldStatus := csrValue m.csrs MSTATUS
  let csrs1 := rawSetCsr m.csrs MEPC pcToSave
  let csrs2 := rawSetCsr csrs1 MCAUSE mcauseVal
  let csrs3 := rawSetCsr csrs2 MTVAL info
  let csrs4 := rawSetCsr csrs3 MSTATUS (mstatusTrapUpdate W oldStatus m.priv)
  let tvec := csrValue m.csrs MTVEC
  let base := tvec - tvec % 4
  let newPc := if interrupt ∧ tvec % 4 = 1 then (base + 4 * cause) % 2 ^ W else base
  { m with csrs := csrs4, priv := machineMode, pc := newPc }

/-- Exception cause codes (`Core::ExceptionCause`, `src/Core.hpp`). -/
def INST_ADDR_MISALIGNED : Nat := 0
def INST_ACCESS_FAULT : Nat := 1
def ILLEGAL_INST : Nat := 2
def BREAKPOINT : Nat := 3
def LOAD_ADDR_MISALIGNED : Nat := 4
def LOAD_ACCESS_FAULT : Nat := 5
def STORE_ADDR_MISALIGNED : Nat := 6
def STORE_ACCESS_FAULT : Nat := 7
def U_ENV_CALL : Nat := 8
def S_ENV_CALL : Nat := 9
def M_ENV_CALL : Nat := 11

/-- Modelled from the spec: `Core::initiateException` (missing `Core.cpp`)
starts a synchronous exception: a non-interrupt trap. -/
def initiateException (m : Machine) (cause pc info : Nat) : Machine :=
  initiateTrap m false cause pc info

/-- Modelled from the spec: `Core::illegalInst` (missing `Core.cpp`) raises
ILLEGAL_INST at the current instruction with the given info. -/
def illegalInst (m : Machine) (info : Nat) : Machine :=
  initiateException m ILLEGAL_INST m.currPc info

/-! ## Instruction semantics

Modelled from the spec: the `Core::exec*` member bodies are not under
`src/` (only their declarations in `Core.hpp`); the semantics follow
spec 4.5.2.  Per `Core.hpp` (lines 170-172) the program counter has already
been advanced past the instruction when a handler runs, so the fall-through
address is `pc` and the instruction's own address is `currPc`. -/

/-- Branch-target update: a taken branch whose target is not 2-byte aligned
raises INST_ADDR_MISALIGNED with the target address and does not write
`pc`. -/
def branchTo (m : Machine) (target : Nat) : Machine :=
  if target % 2 ≠ 0 then initiateException m INST_ADDR_MISALIGNED m.currPc target
  else { m with pc := target }

def execBeq (m : Machine) (rs1 rs2 : Nat) (offset : Int) : Machine :=
  if readReg m rs1 = readReg m rs2 then
    branchTo m (toWord m.mxlen ((m.currPc : Int) + offset))
  else m

def execBne (m : Machine) (rs1 rs2 : Nat) (offset : Int) : Machine :=
  if readReg m rs1 ≠ readReg m rs2 then
    branchTo m (toWord m.mxlen ((m.currPc : Int) + offset))
  else m

def execBlt (m : Machine) (rs1 rs2 : Nat) (offset : Int) : Machine :=
  if sreadReg m rs1 < sreadReg m rs2 then
    branchTo m (toWord m.mxlen ((m.currPc : Int) + offset))
  else m

def execBltu (m : Machine) (rs1 rs2 : Nat) (offset : Int) : Machine :=
  if readReg m rs1 < readReg m rs2 then
    branchTo m (toWord m.mxlen ((m.currPc : Int) + offset))
  else m

def execBge (m : Machine) (rs1 rs2 : Nat) (offset : Int) : Machine :=
  if sreadReg m rs2 ≤ sreadReg m rs1 then
    branchTo m (toWord m.mxlen ((m.currPc : Int) + offset))
  else m

def execBgeu (m : Machine) (rs1 rs2 : Nat) (offset : Int) : Machine :=
  if readReg m rs2 ≤ readReg m rs1 then
    branchTo m (toWord m.mxlen ((m.currPc : Int) + offset))
  else m

/-- `jal`: link `pc` (the fall-through address) into `rd`, then jump to
`currPc + offset`; a misaligned target traps without writing `pc`. -/
def execJal (m : Machine) (rd : Nat) (offset : Int) : Machine :=
  let target := toWord m.mxlen ((m.currPc : Int) + offset)
  if target % 2 ≠ 0 then initiateException m INST_ADDR_MISALIGNED m.currPc target
  else { setReg m rd m.pc with pc := target }

/-- `jalr`: target is `(x[rs1] + offset) & ~1` (low bit cleared); the link
value is computed before the target is installed. -/
def execJalr (m : Machine) (rd rs1 : Nat) (offset : Int) : Machine :=
  let target := toWord m.mxlen ((readReg m rs1 : Int) + offset)
  { setReg m rd m.pc with pc := target - target % 2 }

def execLui (m : Machine) (rd : Nat) (imm : Int) : Machine :=
  setReg m rd (toWord m.mxlen (imm * 4096))

def execAuipc (m : Machine) (rd : Nat) (imm : Int) : Machine :=
  setReg m rd (toWord m.mxlen ((m.currPc : Int) + imm * 4096))

def execAddi (m : Machine) (rd rs1 : Nat) (imm : Int) : Machine :=
  setReg m rd (toWord m.mxlen ((readReg m rs1 : Int) + imm))

def execSlli (m : Machine) (rd rs1 amount : Nat) : Machine :=
  setReg m rd ((readReg m rs1 <<< amount) % 2 ^ m.mxlen)

def execSlti (m : Machine) (rd rs1 : Nat) (imm : Int) : Machine :=
  setReg m rd (if sreadReg m rs1 < imm then 1 else 0)

def execSltiu (m : Machine) (rd rs1 uimm : Nat) : Machine :=
  setReg m rd (if readReg m rs1 < uimm then 1 else 0)

def execXori (m : Machine) (rd rs1 uimm : Nat) : Machine :=
  setReg m rd (readReg m rs1 ^^^ uimm)

def execSrli (m : Machine) (rd rs1 amount : Nat) : Machine :=
  setReg m rd (readReg m rs1 >>> amount)

def execSrai (m : Machine) (rd rs1 amount : Nat) : Machine :=
  setReg m rd (toWord m.mxlen (sreadReg m rs1 / (2 ^ amount : Int)))

def execOri (m : Machine) (rd rs1 uimm : Nat) : Machine :=
  setReg m rd (readReg m rs1 ||| uimm)

def execAndi (m : Machine) (rd rs1 uimm : Nat) : Machine :=
  setReg m rd (readReg m rs1 &&& uimm)

def execAdd (m : Machine) (rd rs1 rs2 : Nat) : Machine :=
  setReg m rd ((readReg m rs1 + readReg m rs2) % 2 ^ m.mxlen)

def execSub (m : Machine) (rd rs1 rs2 : Nat) : Machine :=
  setReg m rd (toWord m.mxlen ((readReg m rs1 : Int) - readReg m rs2))

def execSll (m : Machine) (rd rs1 rs2 : Nat) : Machine :=
  setReg m rd ((readReg m rs1 <<< (readReg m rs2 % m.mxlen)) % 2 ^ m.mxlen)

def execSlt (m : Machine) (rd rs1 rs2 : Nat) : Machine :=
  setReg m rd (if sreadReg m rs1 < sreadReg m rs2 then 1 else 0)

def execSltu (m : Machine) (rd rs1 rs2 : Nat) : Machine :=
  setReg m rd (if readReg m rs1 < readReg m rs2 then 1 else 0)

def execXor (m : Machine) (rd rs1 rs2 : Nat) : Machine :=
  setReg m rd (readReg m rs1 ^^^ readReg m rs2)

def execSrl (m : Machine) (rd rs1 rs2 : Nat) : Machine :=
  setReg m rd (readReg m rs1 >>> (readReg m rs2 % m.mxlen))

def execSra (m : Machine) (rd rs1 rs2 : Nat) : Machine :=
  setReg m rd (toWord m.mxlen (sreadReg m rs1 / (2 ^ (readReg m rs2 % m.mxlen) : Int)))

def execOr (m : Machine) (rd rs1 rs2 : Nat) : Machine :=
  setReg m rd (readReg m rs1 ||| readReg m rs2)

def execAnd (m : Machine) (rd rs1 rs2 : Nat) : Machine :=
  setReg m rd (readReg m rs1 &&& readReg m rs2)

/-- `ecall` raises the environment-call exception for the current privilege
mode; `mtval` is 0. -/
def execEcall (m : Machine) : Machine :=
  let cause := if m.priv = machineMode then M_ENV_CALL
               else if m.priv = supervisorMode then S_ENV_CALL
               else U_ENV_CALL
  initiateException m cause m.currPc 0

/-- `ebreak` raises BREAKPOINT; `mtval` is 0. -/
def execEbreak (m : Machine) : Machine :=
  initiateException m BREAKPOINT m.currPc 0

def execCsrrw (m : Machine) (rd csr rs1 : Nat) : Machine :=
  match csrRead m.csrs csr m.priv with
  | none => illegalInst m 0
  | some old =>
      match csrWrite m.csrs m.mxlen csr m.priv (readReg m rs1) with
      | none => illegalInst m 0
      | some f => setReg { m with csrs := f } rd old

/-- `csrrs`: the CSR write is skipped when `rs1 = 0` (no side effect other
than the read). -/
def execCsrrs (m : Machine) (rd csr rs1 : Nat) : Machine :=
  match csrRead m.csrs csr m.priv with
  | none => illegalInst m 0
  | some old =>
      if rs1 = 0 then setReg m rd old
      else
        match csrWrite m.csrs m.mxlen csr m.priv (old ||| readReg m rs1) with
        | none => illegalInst m 0
        | some f => setReg { m with csrs := f } rd old

/-- `csrrc`: the CSR write is skipped when `rs1 = 0`. -/
def execCsrrc (m : Machine) (rd csr rs1 : Nat) : Machine :=
  match csrRead m.csrs csr m.priv with
  | none => illegalInst m 0
  | some old =>
      if rs1 = 0 then setReg m rd old
      else
        match csrWrite m.csrs m.mxlen csr m.priv (old &&& wNot m.mxlen (readReg m rs1)) with
        | none => illegalInst m 0
        | some f => setReg { m with csrs := f } rd old

def execCsrrwi (m : Machine) (rd csr imm : Nat) : Machine :=
  match csrRead m.csrs csr m.priv with
  | none => illegalInst m 0
  | some old =>
      match csrWrite m.csrs m.mxlen csr m.priv imm with
      | none => illegalInst m 0
      | some f => setReg { m with csrs := f } rd old

def execCsrrsi (m : Machine) (rd csr imm : Nat) : Machine :=
  match csrRead m.csrs csr m.priv with
  | none => illegalInst m 0
  | some old =>
      if imm = 0 then setReg m rd old
      else
        match csrWrite m.csrs m.mxlen csr m.priv (old ||| imm) with
        | none => illegalInst m 0
        | some f => setReg { m with csrs := f } rd old

def execCsrrci (m : Machine) (rd csr imm : Nat) : Machine :=
  match csrRead m.csrs csr m.priv with
  | none => illegalInst m 0
  | some old =>
      if imm = 0 then setReg m rd old
      else
        match csrWrite m.csrs m.mxlen csr m.priv (old &&& wNot m.mxlen imm) with
        | none => illegalInst m 0
        | some f => setReg { m with csrs := f } rd old

/-- Common load semantics: effective address `x[rs1] + imm` mod `2^W`, an
`n`-byte little-endian read with sign or zero extension; misaligned raises
LOAD_ADDR_MISALIGNED and out-of-range raises LOAD_ACCESS_FAULT, with the
effective address in `mtval`. -/
def execLoad (m : Machine) (rd rs1 : Nat) (imm : Int) (n : Nat) (signed : Bool) : Machine :=
  let ea := toWord m.mxlen ((readReg m rs1 : Int) + imm)
  match memRead m.mem ea n with
  | .error .outOfRange => initiateException m LOAD_ACCESS_FAULT m.currPc ea
  | .error .misaligned => initiateException m LOAD_ADDR_MISALIGNED m.currPc ea
  | .ok v => setReg m rd (if signed then signExtend m.mxlen (8 * n) v else v)

def execLb (m : Machine) (rd rs1 : Nat) (imm : Int) : Machine :=
  execLoad m rd rs1 imm 1 true

def execLh (m : Machine) (rd rs1 : Nat) (imm : Int) : Machine :=
  execLoad m rd rs1 imm 2 true

def execLw (m : Machine) (rd rs1 : Nat) (imm : Int) : Machine :=
  execLoad m rd rs1 imm 4 true

def execLbu (m : Machine) (rd rs1 : Nat) (imm : Int) : Machine :=
  execLoad m rd rs1 imm 1 false

def execLhu (m : Machine) (rd rs1 : Nat) (imm : Int) : Machine :=
  execLoad m rd rs1 imm 2 false

def execLwu (m : Machine) (rd rs1 : Nat) (imm : Int) : Machine :=
  execLoad m rd rs1 imm 4 false

/-- Common store semantics: same effective-address rule as loads with the
STORE_* causes. -/
def execStore (m : Machine) (rs1 rs2 : Nat) (imm : Int) (n : Nat) : Machine :=
  let ea := toWord m.mxlen ((readReg m rs1 : Int) + imm)
  match memWrite m.mem ea n (readReg m rs2 % 2 ^ (8 * n)) with
  | .error .outOfRange => initiateException m STORE_ACCESS_FAULT m.currPc ea
  | .error .misaligned => initiateException m STORE_ADDR_MISALIGNED m.currPc ea
  | .ok mem2 => { m with mem := mem2 }

def execSb (m : Machine) (rs1 rs2 : Nat) (imm : Int) : Machine :=
  execStore m rs1 rs2 imm 1

def execSh (m : Machine) (rs1 rs2 : Nat) (imm : Int) : Machine :=
  execStore m rs1 rs2 imm 2

def execSw (m : Machine) (rs1 rs2 : Nat) (imm : Int) : Machine :=
  execStore m rs1 rs2 imm 4

/-! ### M extension -/

/-- Modelled from the spec: `div` semantics — divide-by-zero returns all
ones; `INT_MIN / -1` returns `INT_MIN`; otherwise the quotient truncated
toward zero (C++ signed division). -/
def divw (W a b : Nat) : Nat :=
  if b = 0 then 2 ^ W - 1
  else
    let sa := toSigned W a
    let sb := toSigned W b
    if sa = -(2 ^ (W - 1) : Int) ∧ sb = -1 then a
    else toWord W (Int.tdiv sa sb)

/-- Modelled from the spec: `divu` semantics — divide-by-zero returns
`2^W - 1`. -/
def divuw (W a b : Nat) : Nat :=
  if b = 0 then 2 ^ W - 1 else a / b

/-- Modelled from the spec: `rem` semantics — divide-by-zero returns the
dividend; `INT_MIN % -1` returns 0; otherwise the C++ signed remainder. -/
def remw (W a b : Nat) : Nat :=
  if b = 0 then a
  else
    let sa := toSigned W a
    let sb := toSigned W b
    if sa = -(2 ^ (W - 1) : Int) ∧ sb = -1 then 0
    else toWord W (Int.tmod sa sb)

/-- Modelled from the spec: `remu` semantics — divide-by-zero returns the
dividend. -/
def remuw (W a b : Nat) : Nat :=
  if b = 0 then a else a % b

def execMul (m : Machine) (rd rs1 rs2 : Nat) : Machine :=
  setReg m rd (readReg m rs1 * readReg m rs2 % 2 ^ m.mxlen)

def execMulh (m : Machine) (rd rs1 rs2 : Nat) : Machine :=
  setReg m rd (toWord m.mxlen (sreadReg m rs1 * sreadReg m rs2 / (2 ^ m.mxlen : Int)))

def execMulhsu (m : Machine) (rd rs1 rs2 : Nat) : Machine :=
  setReg m rd (toWord m.mxlen (sreadReg m rs1 * (readReg m rs2 : Int) / (2 ^ m.mxlen : Int)))

def execMulhu (m : Machine) (rd rs1 rs2 : Nat) : Machine :=
  setReg m rd (readReg m rs1 * readReg m rs2 / 2 ^ m.mxlen)

def execDiv (m : Machine) (rd rs1 rs2 : Nat) : Machine :=
  setReg m rd (divw m.mxlen (readReg m rs1) (readReg m rs2))

def execDivu (m : Machine) (rd rs1 rs2 : Nat) : Machine :=
  setReg m rd (divuw m.mxlen (readReg m rs1) (readReg m rs2))

def execRem (m : Machine) (rd rs1 rs2 : Nat) : Machine :=
  setReg m rd (remw m.mxlen (readReg m rs1) (readReg m rs2))

def execRemu (m : Machine) (rd rs1 rs2 : Nat) : Machine :=
  setReg m rd (remuw m.mxlen (readReg m rs1) (readReg m rs2))

/-! ## Decoded instructions and dispatch

Spec 9 (design notes): a decoded-instruction sum type, one variant per
operation kind carrying its operands, consumed by a single dispatcher; the
variants are exactly the `exec*` handlers declared in `src/Core.hpp`. -/

inductive Instr where
  | Beq (rs1 rs2 : Nat) (offset : Int)
  | Bne (rs1 rs2 : Nat) (offset : Int)
  | Blt (rs1 rs2 : Nat) (offset : Int)
  | Bltu (rs1 rs2 : Nat) (offset : Int)
  | Bge (rs1 rs2 : Nat) (offset : Int)
  | Bgeu (rs1 rs2 : Nat) (offset : Int)
  | Jalr (rd rs1 : Nat) (offset : Int)
  | Jal (rd : Nat) (offset : Int)
  | Lui (rd : Nat) (imm : Int)
  | Auipc (rd : Nat) (imm : Int)
  | Addi (rd rs1 : Nat) (imm : Int)
  | Slli (rd rs1 amount : Nat)
  | Slti (rd rs1 : Nat) (imm : Int)
  | Sltiu (rd rs1 uimm : Nat)
  | Xori (rd rs1 uimm : Nat)
  | Srli (rd rs1 amount : Nat)
  | Srai (rd rs1 amount : Nat)
  | Ori (rd rs1 uimm : Nat)
  | Andi (rd rs1 uimm : Nat)
  | Add (rd rs1 rs2 : Nat)
  | Sub (rd rs1 rs2 : Nat)
  | Sll (rd rs1 rs2 : Nat)
  | Slt (rd rs1 rs2 : Nat)
  | Sltu (rd rs1 rs2 : Nat)
  | Xor (rd rs1 rs2 : Nat)
  | Srl (rd rs1 rs2 : Nat)
  | Sra (rd rs1 rs2 : Nat)
  | Or (rd rs1 rs2 : Nat)
  | And (rd rs1 rs2 : Nat)
  | Ecall
  | Ebreak
  | Csrrw (rd csr rs1 : Nat)
  | Csrrs (rd csr rs1 : Nat)
  | Csrrc (rd csr rs1 : Nat)
  | Csrrwi (rd csr imm : Nat)
  | Csrrsi (rd csr imm : Nat)
  | Csrrci (rd csr imm : Nat)
  | Lb (rd rs1 : Nat) (imm : Int)
  | Lh (rd rs1 : Nat) (imm : Int)
  | Lw (rd rs1 : Nat) (imm : Int)
  | Lbu (rd rs1 : Nat) (imm : Int)
  | Lhu (rd rs1 : Nat) (imm : Int)
  | Lwu (rd rs1 : Nat) (imm : Int)
  | Sb (rs1 rs2 : Nat) (imm : Int)
  | Sh (rs1 rs2 : Nat) (imm : Int)
  | Sw (rs1 rs2 : Nat) (imm : Int)
  | Mul (rd rs1 rs2 : Nat)
  | Mulh (rd rs1 rs2 : Nat)
  | Mulhsu (rd rs1 rs2 : Nat)
  | Mulhu (rd rs1 rs2 : Nat)
  | Div (rd rs1 rs2 : Nat)
  | Divu (rd rs1 rs2 : Nat)
  | Rem (rd rs1 rs2 : Nat)
  | Remu (rd rs1 rs2 : Nat)

/-- Destination-register index of a decoded instruction, when it has one. -/
def rdOf : Instr → Option Nat
  | .Jalr rd _ _ => some rd
  | .Jal rd _ => some rd
  | .Lui rd _ => some rd
  | .Auipc rd _ => some rd
  | .Addi rd _ _ => some rd
  | .Slli rd _ _ => some rd
  | .Slti rd _ _ => some rd
  | .Sltiu rd _ _ => some rd
  | .Xori rd _ _ => some rd
  | .Srli rd _ _ => some rd
  | .Srai rd _ _ => some rd
  | .Ori rd _ _ => some rd
  | .Andi rd _ _ => some rd
  | .Add rd _ _ => some rd
  | .Sub rd _ _ => some rd
  | .Sll rd _ _ => some rd
  | .Slt rd _ _ => some rd
  | .Sltu rd _ _ => some rd
  | .Xor rd _ _ => some rd
  | .Srl rd _ _ => some rd
  | .Sra rd _ _ => some rd
  | .Or rd _ _ => some rd
  | .And rd _ _ => some rd
  | .Csrrw rd _ _ => some rd
  | .Csrrs rd _ _ => some rd
  | .Csrrc rd _ _ => some rd
  | .Csrrwi rd _ _ => some rd
  | .Csrrsi rd _ _ => some rd
  | .Csrrci rd _ _ => some rd
  | .Lb rd _ _ => some rd
  | .Lh rd _ _ => some rd
  | .Lw rd _ _ => some rd
  | .Lbu rd _ _ => some rd
  | .Lhu rd _ _ => some rd
  | .Lwu rd _ _ => some rd
  | .Mul rd _ _ => some rd
  | .Mulh rd _ _ => some rd
  | .Mulhsu rd _ _ => some rd
  | .Mulhu rd _ _ => some rd
  | .Div rd _ _ => some rd
  | .Divu rd _ _ => some rd
  | .Rem rd _ _ => some rd
  | .Remu rd _ _ => some rd
  | _ => none

/-- The single dispatcher (the body of `Core::execute32` after decoding):
route each decoded operation to its semantic handler. -/
def execInstr (m : Machine) : Instr → Machine
  | .Beq rs1 rs2 offset => execBeq m rs1 rs2 offset
  | .Bne rs1 rs2 offset => execBne m rs1 rs2 offset
  | .Blt rs1 rs2 offset => execBlt m rs1 rs2 offset
  | .Bltu rs1 rs2 offset => execBltu m rs1 rs2 offset
  | .Bge rs1 rs2 offset => execBge m rs1 rs2 offset
  | .Bgeu rs1 rs2 offset => execBgeu m rs1 rs2 offset
  | .Jalr rd rs1 offset => execJalr m rd rs1 offset
  | .Jal rd offset => execJal m rd offset
  | .Lui rd imm => execLui m rd imm
  | .Auipc rd imm => execAuipc m rd imm
  | .Addi rd rs1 imm => execAddi m rd rs1 imm
  | .Slli rd rs1 amount => execSlli m rd rs1 amount
  | .Slti rd rs1 imm => execSlti m rd rs1 imm
  | .Sltiu rd rs1 uimm => execSltiu m rd rs1 uimm
  | .Xori rd rs1 uimm => execXori m rd rs1 uimm
  | .Srli rd rs1 amount => execSrli m rd rs1 amount
  | .Srai rd rs1 amount => execSrai m rd rs1 amount
  | .Ori rd rs1 uimm => execOri m rd rs1 uimm
  | .Andi rd rs1 uimm => execAndi m rd rs1 uimm
  | .Add rd rs1 rs2 => execAdd m rd rs1 rs2
  | .Sub rd rs1 rs2 => execSub m rd rs1 rs2
  | .Sll rd rs1 rs2 => execSll m rd rs1 rs2
  | .Slt rd rs1 rs2 => execSlt m rd rs1 rs2
  | .Sltu rd rs1 rs2 => execSltu m rd rs1 rs2
  | .Xor rd rs1 rs2 => execXor m rd rs1 rs2
  | .Srl rd rs1 rs2 => execSrl m rd rs1 rs2
  | .Sra rd rs1 rs2 => execSra m rd rs1 rs2
  | .Or rd rs1 rs2 => execOr m rd rs1 rs2
  | .And rd rs1 rs2 => execAnd m rd rs1 rs2
  | .Ecall => execEcall m
  | .Ebreak => execEbreak m
  | .Csrrw rd csr rs1 => execCsrrw m rd csr rs1
  | .Csrrs rd csr rs1 => execCsrrs m rd csr rs1
  | .Csrrc rd csr rs1 => execCsrrc m rd csr rs1
  | .Csrrwi rd csr imm => execCsrrwi m rd csr imm
  | .Csrrsi rd csr imm => execCsrrsi m rd csr imm
  | .Csrrci rd csr imm => execCsrrci m rd csr imm
  | .Lb rd rs1 imm => execLb m rd rs1 imm
  | .Lh rd rs1 imm => execLh m rd rs1 imm
  | .Lw rd rs1 imm => execLw m rd rs1 imm
  | .Lbu rd rs1 imm => execLbu m rd rs1 imm
  | .Lhu rd rs1 imm => execLhu m rd rs1 imm
  | .Lwu rd rs1 imm => execLwu m rd rs1 imm
  | .Sb rs1 rs2 imm => execSb m rs1 rs2 imm
  | .Sh rs1 rs2 imm => execSh m rs1 rs2 imm
  | .Sw rs1 rs2 imm => execSw m rs1 rs2 imm
  | .Mul rd rs1 rs2 => execMul m rd rs1 rs2
  | .Mulh rd rs1 rs2 => execMulh m rd rs1 rs2
  | .Mulhsu rd rs1 rs2 => execMulhsu m rd rs1 rs2
  | .Mulhu rd rs1 rs2 => execMulhu m rd rs1 rs2
  | .Div rd rs1 rs2 => execDiv m rd rs1 rs2
  | .Divu rd rs1 rs2 => execDivu m rd rs1 rs2
  | .Rem rd rs1 rs2 => execRem m rd rs1 rs2
  | .Remu rd rs1 rs2 => execRemu m rd rs1 rs2

/-! ## Decoder

Modelled from the spec: the body of `Core::execute32` is not under `src/`.
Spec 4.4: decoding of a 32-bit encoding is by opcode (bits 6:0), then
funct3 (bits 14:12), then funct7 (bits 31:25) or specific immediates, the
immediate sign-extended according to its format (I, S, B, U, J); unknown or
reserved encodings produce a decode failure. -/

/-- I-format immediate (bits 31:20, sign-extended). -/
def immI (w : Nat) : Int := toSigned 12 ((w >>> 20) &&& 0xFFF)

/-- S-format immediate. -/
def immS (w : Nat) : Int :=
  toSigned 12 ((((w >>> 25) &&& 0x7F) <<< 5) ||| ((w >>> 7) &&& 0x1F))

/-- B-format immediate (multiples of 2). -/
def immB (w : Nat) : Int :=
  toSigned 13 ((((w >>> 31) &&& 1) <<< 12) ||| (((w >>> 7) &&& 1) <<< 11) |||
               (((w >>> 25) &&& 0x3F) <<< 5) ||| (((w >>> 8) &&& 0xF) <<< 1))

/-- U-format immediate (bits 31:12, to be shifted left by 12 by the
semantics). -/
def immU (w : Nat) : Int := toSigned 20 ((w >>> 12) &&& 0xFFFFF)

/-- J-format immediate (multiples of 2). -/
def immJ (w : Nat) : Int :=
  toSigned 21 ((((w >>> 31) &&& 1) <<< 20) ||| (((w >>> 12) &&& 0xFF) <<< 12) |||
               (((w >>> 20) &&& 1) <<< 11) ||| (((w >>> 21) &&& 0x3FF) <<< 1))

/-- Modelled from the spec: the 32-bit decoder of `Core::execute32`
(missing `Core.cpp`), parameterized by the register width for the
unsigned-immediate operands (`URV uimm` in `Core.hpp`). -/
def decode32 (W w : Nat) : Option Instr :=
  let op := w &&& 0x7F
  let rd := (w >>> 7) &&& 0x1F
  let f3 := (w >>> 12) &&& 7
  let rs1 := (w >>> 15) &&& 0x1F
  let rs2 := (w >>> 20) &&& 0x1F
  let f7 := (w >>> 25) &&& 0x7F
  let csr := (w >>> 20) &&& 0xFFF
  if op = 0x37 then some (.Lui rd (immU w))
  else if op = 0x17 then some (.Auipc rd (immU w))
  else if op = 0x6F then some (.Jal rd (immJ w))
  else if op = 0x67 then
    if f3 = 0 then some (.Jalr rd rs1 (immI w)) else none
  else if op = 0x63 then
    match f3 with
    | 0 => some (.Beq rs1 rs2 (immB w))
    | 1 => some (.Bne rs1 rs2 (immB w))
    | 4 => some (.Blt rs1 rs2 (immB w))
    | 5 => some (.Bge rs1 rs2 (immB w))
    | 6 => some (.Bltu rs1 rs2 (immB w))
    | 7 => some (.Bgeu rs1 rs2 (immB w))
    | _ => none
  else if op = 0x03 then
    match f3 with
    | 0 => some (.Lb rd rs1 (immI w))
    | 1 => some (.Lh rd rs1 (immI w))
    | 2 => some (.Lw rd rs1 (immI w))
    | 4 => some (.Lbu rd rs1 (immI w))
    | 5 => some (.Lhu rd rs1 (immI w))
    | 6 => some (.Lwu rd rs1 (immI w))
    | _ => none
  else if op = 0x23 then
    match f3 with
    | 0 => some (.Sb rs1 rs2 (immS w))
    | 1 => some (.Sh rs1 rs2 (immS w))
    | 2 => some (.Sw rs1 rs2 (immS w))
    | _ => none
  else if op = 0x13 then
    match f3 with
    | 0 => some (.Addi rd rs1 (immI w))
    | 1 => if f7 = 0 then some (.Slli rd rs1 rs2) else none
    | 2 => some (.Slti rd rs1 (immI w))
    | 3 => some (.Sltiu rd rs1 (toWord W (immI w)))
    | 4 => some (.Xori rd rs1 (toWord W (immI w)))
    | 5 => if f7 = 0 then some (.Srli rd rs1 rs2)
           else if f7 = 0x20 then some (.Srai rd rs1 rs2)
           else none
    | 6 => some (.Ori rd rs1 (toWord W (immI w)))
    | 7 => some (.Andi rd rs1 (toWord W (immI w)))
    | _ => none
  else if op = 0x33 then
    if f7 = 0 then
      match f3 with
      | 0 => some (.Add rd rs1 rs2)
      | 1 => some (.Sll rd rs1 rs2)
      | 2 => some (.Slt rd rs1 rs2)
      | 3 => some (.Sltu rd rs1 rs2)
      | 4 => some (.Xor rd rs1 rs2)
      | 5 => some (.Srl rd rs1 rs2)
      | 6 => some (.Or rd rs1 rs2)
      | 7 => some (.And rd rs1 rs2)
      | _ => none
    else if f7 = 0x20 then
      match f3 with
      | 0 => some (.Sub rd rs1 rs2)
      | 5 => some (.Sra rd rs1 rs2)
      | _ => none
    else if f7 = 1 then
      match f3 with
      | 0 => some (.Mul rd rs1 rs2)
      | 1 => some (.Mulh rd rs1 rs2)
      | 2 => some (.Mulhsu rd rs1 rs2)
      | 3 => some (.Mulhu rd rs1 rs2)
      | 4 => some (.Div rd rs1 rs2)
      | 5 => some (.Divu rd rs1 rs2)
      | 6 => some (.Rem rd rs1 rs2)
      | 7 => some (.Remu rd rs1 rs2)
      | _ => none
    else none
  else if op = 0x73 then
    match f3 with
    | 0 => if w = 0x73 then some .Ecall
           else if w = 0x100073 then some .Ebreak
           else none
    | 1 => some (.Csrrw rd csr rs1)
    | 2 => some (.Csrrs rd csr rs1)
    | 3 => some (.Csrrc rd csr rs1)
    | 5 => some (.Csrrwi rd csr rs1)
    | 6 => some (.Csrrsi rd csr rs1)
    | 7 => some (.Csrrci rd csr rs1)
    | _ => none
  else none

/-! ## Compressed expansion -/

/-- The CJ-format jump offset of a compressed `c.jal`/`c.j` word, as a
21-bit sign-extended J-immediate value (offset bits
`[11|4|9:8|10|6|7|3:1|5]` live in instruction bits 12 down to 2). -/
def cjImm (c : Nat) : Nat :=
  let v := (((c >>> 12) &&& 1) <<< 11) ||| (((c >>> 11) &&& 1) <<< 4) |||
           (((c >>> 9) &&& 3) <<< 8) ||| (((c >>> 8) &&& 1) <<< 10) |||
           (((c >>> 7) &&& 1) <<< 6) ||| (((c >>> 6) &&& 1) <<< 7) |||
           (((c >>> 3) &&& 7) <<< 1) ||| (((c >>> 2) &&& 1) <<< 5)
  if (c >>> 12) &&& 1 = 1 then v ||| 0x1FF000 else v

/-- Assemble a 32-bit `jal` encoding from a link register and a 21-bit
offset value (J-format immediate packing). -/
def jalEncode (rd imm : Nat) : Nat :=
  (((imm >>> 20) &&& 1) <<< 31) ||| (((imm >>> 1) &&& 0x3FF) <<< 21) |||
  (((imm >>> 11) &&& 1) <<< 20) ||| (((imm >>> 12) &&& 0xFF) <<< 12) ||| (rd <<< 7) ||| 0x6F

/-- The CB-format branch offset of a compressed `c.beqz`/`c.bnez` word, as
a 13-bit sign-extended B-immediate value (offset bits `[8|4:3]` in
instruction bits 12:10 and `[7:6|2:1|5]` in bits 6:2). -/
def cbImm (c : Nat) : Nat :=
  let v := (((c >>> 12) &&& 1) <<< 8) ||| (((c >>> 10) &&& 3) <<< 3) |||
           (((c >>> 5) &&& 3) <<< 6) ||| (((c >>> 3) &&& 3) <<< 1) |||
           (((c >>> 2) &&& 1) <<< 5)
  if (c >>> 12) &&& 1 = 1 then v ||| 0x1E00 else v

/-- Assemble a 32-bit branch encoding from funct3, two source registers and
a 13-bit offset value (B-format immediate packing). -/
def branchEncode (f3 rs1 rs2 imm : Nat) : Nat :=
  (((imm >>> 12) &&& 1) <<< 31) ||| (((imm >>> 5) &&& 0x3F) <<< 25) ||| (rs2 <<< 20) |||
  (rs1 <<< 15) ||| (f3 <<< 12) ||| (((imm >>> 1) &&& 0xF) <<< 8) |||
  (((imm >>> 11) &&& 1) <<< 7) ||| 0x63

/-- Modelled from the spec: `Core::expandInst` (declared at `src/Core.hpp`
lines 104-107, body missing): expand a 16-bit code to the equivalent 32-bit
instruction code, failing on codes that do not correspond to a valid
instruction.  Spec 4.4: the low two bits select the quadrant; every
recognized form maps to exactly one standard form; the reserved sub-cases
(`c.addi4spn` with zero immediate, `c.lwsp` with `rd = 0`, `c.jr` with
`rs1 = 0`, `c.lui`/`c.addi16sp` with zero immediate) fail.  The bit
layouts are the standard RISC-V C-extension forms of the RV32IMC subset the
core supports: quadrant 0 `c.addi4spn`/`c.lw`/`c.sw`; quadrant 1
`c.addi`/`c.jal`/`c.li`/`c.lui`/`c.addi16sp`/`c.srli`/`c.srai`/`c.andi`/
`c.sub`/`c.xor`/`c.or`/`c.and`/`c.j`/`c.beqz`/`c.bnez`; quadrant 2
`c.slli`/`c.lwsp`/`c.jr`/`c.mv`/`c.ebreak`/`c.jalr`/`c.add`/`c.swsp`.
Floating-point and RV64-only forms (spec 1 lists F/D as out of scope) and
the RV32-reserved shift encodings with a set bit 12 fail. -/
def expandInst (c : Nat) : Option Nat :=
  let q := c &&& 3
  let f3 := (c >>> 13) &&& 7
  if q = 0 then
    if f3 = 0 then
      let imm := (((c >>> 11) &&& 3) <<< 4) ||| (((c >>> 7) &&& 0xF) <<< 6) |||
                 (((c >>> 6) &&& 1) <<< 2) ||| (((c >>> 5) &&& 1) <<< 3)
      let rd := 8 + ((c >>> 2) &&& 7)
      if imm = 0 then none
      else some ((imm <<< 20) ||| (2 <<< 15) ||| (rd <<< 7) ||| 0x13)
    else if f3 = 2 then
      let imm := (((c >>> 10) &&& 7) <<< 3) ||| (((c >>> 6) &&& 1) <<< 2) |||
                 (((c >>> 5) &&& 1) <<< 6)
      let rd := 8 + ((c >>> 2) &&& 7)
      let rs1 := 8 + ((c >>> 7) &&& 7)
      some ((imm <<< 20) ||| (rs1 <<< 15) ||| (2 <<< 12) ||| (rd <<< 7) ||| 0x03)
    else if f3 = 6 then
      let imm := (((c >>> 10) &&& 7) <<< 3) ||| (((c >>> 6) &&& 1) <<< 2) |||
                 (((c >>> 5) &&& 1) <<< 6)
      let rs2 := 8 + ((c >>> 2) &&& 7)
      let rs1 := 8 + ((c >>> 7) &&& 7)
      some (((imm >>> 5) <<< 25) ||| (rs2 <<< 20) ||| (rs1 <<< 15) ||| (2 <<< 12) |||
            ((imm &&& 0x1F) <<< 7) ||| 0x23)
    else none
  else if q = 1 then
    let rd := (c >>> 7) &&& 0x1F
    let imm6 := (((c >>> 12) &&& 1) <<< 5) ||| ((c >>> 2) &&& 0x1F)
    let imm12 := if (c >>> 12) &&& 1 = 1 then imm6 ||| 0xFC0 else imm6
    if f3 = 0 then
      some ((imm12 <<< 20) ||| (rd <<< 15) ||| (rd <<< 7) ||| 0x13)
    else if f3 = 1 then
      some (jalEncode 1 (cjImm c))
    else if f3 = 2 then
      some ((imm12 <<< 20) ||| (rd <<< 7) ||| 0x13)
    else if f3 = 3 then
      if imm6 = 0 then none
      else if rd = 2 then
        let v := (((c >>> 12) &&& 1) <<< 9) ||| (((c >>> 6) &&& 1) <<< 4) |||
                 (((c >>> 5) &&& 1) <<< 6) ||| (((c >>> 3) &&& 3) <<< 7) |||
                 (((c >>> 2) &&& 1) <<< 5)
        let v12 := if (c >>> 12) &&& 1 = 1 then v ||| 0xC00 else v
        some ((v12 <<< 20) ||| (2 <<< 15) ||| (2 <<< 7) ||| 0x13)
      else if rd = 0 then none
      else
        let u := if (c >>> 12) &&& 1 = 1 then imm6 ||| 0xFFFC0 else imm6
        some ((u <<< 12) ||| (rd <<< 7) ||| 0x37)
    else if f3 = 4 then
      let rdp := 8 + ((c >>> 7) &&& 7)
      let f2 := (c >>> 10) &&& 3
      let bit12 := (c >>> 12) &&& 1
      if f2 = 0 then
        if bit12 = 1 then none
        else some ((((c >>> 2) &&& 0x1F) <<< 20) ||| (rdp <<< 15) ||| (5 <<< 12) |||
                   (rdp <<< 7) ||| 0x13)
      else if f2 = 1 then
        if bit12 = 1 then none
        else some ((0x20 <<< 25) ||| (((c >>> 2) &&& 0x1F) <<< 20) ||| (rdp <<< 15) |||
                   (5 <<< 12) ||| (rdp <<< 7) ||| 0x13)
      else if f2 = 2 then
        some ((imm12 <<< 20) ||| (rdp <<< 15) ||| (7 <<< 12) ||| (rdp <<< 7) ||| 0x13)
      else
        if bit12 = 1 then none
        else
          let rs2p := 8 + ((c >>> 2) &&& 7)
          let f2b := (c >>> 5) &&& 3
          if f2b = 0 then
            some ((0x20 <<< 25) ||| (rs2p <<< 20) ||| (rdp <<< 15) ||| (rdp <<< 7) ||| 0x33)
          else if f2b = 1 then
            some ((rs2p <<< 20) ||| (rdp <<< 15) ||| (4 <<< 12) ||| (rdp <<< 7) ||| 0x33)
          else if f2b = 2 then
            some ((rs2p <<< 20) ||| (rdp <<< 15) ||| (6 <<< 12) ||| (rdp <<< 7) ||| 0x33)
          else
            some ((rs2p <<< 20) ||| (rdp <<< 15) ||| (7 <<< 12) ||| (rdp <<< 7) ||| 0x33)
    else if f3 = 5 then
      some (jalEncode 0 (cjImm c))
    else if f3 = 6 then
      some (branchEncode 0 (8 + ((c >>> 7) &&& 7)) 0 (cbImm c))
    else
      some (branchEncode 1 (8 + ((c >>> 7) &&& 7)) 0 (cbImm c))
  else if q = 2 then
    let rd := (c >>> 7) &&& 0x1F
    let rs2 := (c >>> 2) &&& 0x1F
    if f3 = 0 then
      if (c >>> 12) &&& 1 = 1 then none
      else some ((((c >>> 2) &&& 0x1F) <<< 20) ||| (rd <<< 15) ||| (1 <<< 12) |||
                 (rd <<< 7) ||| 0x13)
    else if f3 = 2 then
      if rd = 0 then none
      else
        let imm := (((c >>> 12) &&& 1) <<< 5) ||| (((c >>> 4) &&& 7) <<< 2) |||
                   (((c >>> 2) &&& 3) <<< 6)
        some ((imm <<< 20) ||| (2 <<< 15) ||| (2 <<< 12) ||| (rd <<< 7) ||| 0x03)
    else if f3 = 4 then
      if (c >>> 12) &&& 1 = 0 then
        if rs2 = 0 then
          if rd = 0 then none
          else some ((rd <<< 15) ||| 0x67)
        else some ((rs2 <<< 20) ||| (rd <<< 7) ||| 0x33)
      else
        if rs2 = 0 then
          if rd = 0 then some 0x00100073
          else some ((rd <<< 15) ||| (1 <<< 7) ||| 0x67)
        else some ((rs2 <<< 20) ||| (rd <<< 15) ||| (rd <<< 7) ||| 0x33)
    else if f3 = 6 then
      let imm := (((c >>> 9) &&& 0xF) <<< 2) ||| (((c >>> 7) &&& 3) <<< 6)
      some (((imm >>> 5) <<< 25) ||| (rs2 <<< 20) ||| (2 <<< 15) ||| (2 <<< 12) |||
            ((imm &&& 0x1F) <<< 7) ||| 0x23)
    else none
  else none

/-- Decode a 16-bit compressed encoding: spec 4.4, the decoder first expands
compressed instructions to their canonical 32-bit form, failing on reserved
or undefined compressed encodings. -/
def decode16 (W c : Nat) : Option Instr :=
  match expandInst c with
  | none => none
  | some e => decode32 W e

/-- One step of `Core::execute32` on a raw 32-bit word (spec 4.5.1 steps
4-5): a decode failure raises ILLEGAL_INST with the raw encoding in
`mtval`; otherwise dispatch the decoded operation. -/
def execWord32 (m : Machine) (w : Nat) : Machine :=
  match decode32 m.mxlen w with
  | none => illegalInst m w
  | some i => execInstr m i

/-- One step of `Core::execute16` on a raw 16-bit word: expand, raising
ILLEGAL_INST on expansion failure, then proceed as for the expanded 32-bit
word. -/
def execWord16 (m : Machine) (c : Nat) : Machine :=
  match expandInst c with
  | none => illegalInst m c
  | some e => execWord32 m e

/-! ## Observable trap and skip outcomes referenced by the theorems -/

/-- The observable outcome of a control-transfer instruction whose target
is not 2-byte aligned: INST_ADDR_MISALIGNED is raised with the target
address in `mtval` and the instruction's address in `mepc`, the new `pc` is
the trap vector base (not the target), and no register was written. -/
def misalignedTrapOk (m m' : Machine) (target : Nat) : Prop :=
  csrValue m'.csrs MCAUSE = INST_ADDR_MISALIGNED ∧
  csrValue m'.csrs MEPC = m.currPc ∧
  csrValue m'.csrs MTVAL = target ∧
  m'.pc = csrValue m.csrs MTVEC - csrValue m.csrs MTVEC % 4 ∧
  m'.xregs = m.xregs

/-- The observable outcome of a faulting load: the given cause is raised
with the effective address in `mtval` and the instruction's address in
`mepc`. -/
def loadTrapOk (m m' : Machine) (ea cause : Nat) : Prop :=
  csrValue m'.csrs MCAUSE = cause ∧
  csrValue m'.csrs MTVAL = ea ∧
  csrValue m'.csrs MEPC = m.currPc

/-- The observable outcome of a CSR set/clear instruction whose write is
skipped: the CSR file object is untouched (so the CSR value is unchanged
and there is no write side effect), the program counter is not redirected,
and the old CSR value was read into `rd`. -/
def csrReadSkipOk (m m' : Machine) (csr old rd : Nat) : Prop :=
  m'.csrs = m.csrs ∧
  m'.pc = m.pc ∧
  csrValue m'.csrs csr = csrValue m.csrs csr ∧
  (rd ≠ 0 → rd < m.xregs.length → intRead m'.xregs rd = old)

/-! ## Concrete harts used to exercise the theorems on literal inputs -/

/-- A 32-bit hart in machine mode with `mstatus.MIE` set and a vectored
trap vector at `0x80` (`mtvec = 0x81`). -/
def mTrap : Machine where
  mxlen := 32
  mem := []
  xregs := List.replicate 32 0
  csrs := fun a =>
    if a = MSTATUS then some ⟨8, 0xFFFFFFFF, 0xFFFFFFFF, 3⟩
    else if a = MTVEC then some ⟨0x81, 0xFFFFFFFF, 0xFFFFFFFF, 3⟩
    else none
  pc := 4
  currPc := 0
  priv := 3

/-- A 32-bit hart at address 0 with a direct-mode trap vector at `0x80`. -/
def mJal : Machine where
  mxlen := 32
  mem := []
  xregs := List.replicate 32 0
  csrs := fun a => if a = MTVEC then some ⟨0x80, 0xFFFFFFFF, 0xFFFFFFFF, 3⟩ else none
  pc := 4
  currPc := 0
  priv := 3

/-- A 32-bit hart with a 16-byte memory and `x1 = 14` (spec scenario 4). -/
def mLw : Machine where
  mxlen := 32
  mem := List.replicate 16 0
  xregs := 0 :: 14 :: List.replicate 30 0
  csrs := fun _ => none
  pc := 4
  currPc := 0
  priv := 3

/-- A 32-bit hart with `mscratch` preloaded to `0xAA` (spec scenario 5). -/
def mCsr : Machine where
  mxlen := 32
  mem := []
  xregs := List.replicate 32 0
  csrs := fun a => if a = MSCRATCH then some ⟨0xAA, 0xFFFFFFFF, 0xFFFFFFFF, 3⟩ else none
  pc := 4
  currPc := 0
  priv := 3

/-- A 32-bit hart with `x1 = 5` and no CSRs. -/
def mC4 : Machine where
  mxlen := 32
  mem := []
  xregs := 0 :: 5 :: List.replicate 30 0
  csrs := fun _ => none
  pc := 4
  currPc := 0
  priv := 3

/-- A CSR file holding only `mscratch = 0x1AA` with write mask `0xFF`. -/
def csrFileC3 : CsrFile :=
  fun a => if a = MSCRATCH then some ⟨0x1AA, 0xFF, 0xFFFFFFFF, 3⟩ else none

/-- `csrFileC3` after a masked write of `0x123` to `mscratch`: the low byte
takes the written bits, bit 8 keeps its old value. -/
def csrFileC3post : CsrFile :=
  fun a => if a = MSCRATCH then some ⟨0x123, 0xFF, 0xFFFFFFFF, 3⟩ else csrFileC3 a

end WdRiscv

/-! ## Theorems -/

namespace WdRiscv

/-! ### CSR-file update lemmas shared by the trap theorems -/

theorem csrValue_rawSetCsr_self (f : CsrFile) (a v : Nat) :
    csrValue (rawSetCsr f a v) a = v := by
  simp only [csrValue, rawSetCsr, if_pos rfl]
  cases f a <;> simp

theorem csrValue_rawSetCsr_ne (f : CsrFile) (a b v : Nat) (h : b ≠ a) :
    csrValue (rawSetCsr f a v) b = csrValue f b := by
  simp only [csrValue, rawSetCsr, if_neg h]

/-! ### Bit-level behavior of the `mstatus` trap update -/

theorem mstatusTrapUpdate_mie_saved {W : Nat} (old priv : Nat) (hW : 13 ≤ W) :
    (mstatusTrapUpdate W old priv).testBit 7 = old.testBit 3 := by
  have h7 : (7 : Nat) < W := by omega
  simp +decide [mstatusTrapUpdate, wNot, Nat.testBit_or, Nat.testBit_and, Nat.testBit_xor,
    Nat.testBit_shiftLeft, Nat.testBit_shiftRight, Nat.testBit_two_pow_sub_one, h7]

theorem mstatusTrapUpdate_mie_cleared {W : Nat} (old priv : Nat) (hW : 13 ≤ W) :
    (mstatusTrapUpdate W old priv).testBit 3 = false := by
  have h3 : (3 : Nat) < W := by omega
  simp +decide [mstatusTrapUpdate, wNot, Nat.testBit_or, Nat.testBit_and, Nat.testBit_xor,
    Nat.testBit_shiftLeft, Nat.testBit_shiftRight, Nat.testBit_two_pow_sub_one, h3]

theorem mstatusTrapUpdate_mpp {W : Nat} (old priv : Nat) (hW : 13 ≤ W) (hp : priv ≤ 3) :
    ((mstatusTrapUpdate W old priv) >>> 11) &&& 3 = priv := by
  apply Nat.eq_of_testBit_eq
  intro i
  match i with
  | 0 =>
    have h11 : (11 : Nat) < W := by omega
    have e4 : ((old >>> 3) % 2).testBit 4 = false := Nat.testBit_lt_two_pow (by omega)
    simp +decide [e4, mstatusTrapUpdate, wNot, Nat.testBit_or, Nat.testBit_and,
      Nat.testBit_xor, Nat.testBit_shiftLeft, Nat.testBit_shiftRight,
      Nat.testBit_two_pow_sub_one, h11]
  | 1 =>
    have h12 : (12 : Nat) < W := by omega
    have e5 : ((old >>> 3) % 2).testBit 5 = false := Nat.testBit_lt_two_pow (by omega)
    have d1 : Nat.testBit 6280 12 = true := by decide
    have d2 : Nat.testBit 3 1 = true := by decide
    simp +decide [e5, d1, d2, mstatusTrapUpdate, wNot, Nat.testBit_or, Nat.testBit_and,
      Nat.testBit_xor, Nat.testBit_shiftLeft, Nat.testBit_shiftRight,
      Nat.testBit_two_pow_sub_one, h12]
  | i + 2 =>
    have hpw : priv < 2 ^ (i + 2) := by
      have : (4 : Nat) ≤ 2 ^ (i + 2) := by
        calc (4 : Nat) = 2 ^ 2 := rfl
        _ ≤ 2 ^ (i + 2) := Nat.pow_le_pow_right (by omega) (by omega)
      omega
    have h2 : (3 : Nat).testBit (i + 2) = false := by
      apply Nat.testBit_lt_two_pow
      have : (4 : Nat) ≤ 2 ^ (i + 2) := by
        calc (4 : Nat) = 2 ^ 2 := rfl
        _ ≤ 2 ^ (i + 2) := Nat.pow_le_pow_right (by omega) (by omega)
      omega
    simp [Nat.testBit_and, Nat.testBit_shiftRight, h2, Nat.testBit_lt_two_pow hpw]

/-- C1: when a trap is initiated, `mepc` receives the saved pc, `mcause`
receives `(interrupt ? 1 << (W-1) : 0) | causeCode`, `mtval` receives the
info value, `mstatus.MPIE` (bit 7) receives the old `mstatus.MIE` (bit 3)
and `MIE` is cleared, `mstatus.MPP` (bits 12:11) receives the current
privilege, the privilege mode becomes Machine, and `pc` becomes
`mtvec.BASE` (`BASE + 4*cause` for vectored-mode interrupts). -/
theorem initiateTrap_state_update (m : Machine) (interrupt : Bool)
    (cause pcToSave info : Nat) (hW : 13 ≤ m.mxlen) (hpriv : m.priv ≤ 3) :
    csrValue (initiateTrap m interrupt cause pcToSave info).csrs MEPC = pcToSave ∧
    csrValue (initiateTrap m interrupt cause pcToSave info).csrs MCAUSE =
      ((if interrupt then 2 ^ (m.mxlen - 1) else 0) ||| cause) ∧
    csrValue (initiateTrap m interrupt cause pcToSave info).csrs MTVAL = info ∧
    (csrValue (initiateTrap m interrupt cause pcToSave info).csrs MSTATUS).testBit 7 =
      (csrValue m.csrs MSTATUS).testBit 3 ∧
    (csrValue (initiateTrap m interrupt cause pcToSave info).csrs MSTATUS).testBit 3 = false ∧
    (csrValue (initiateTrap m interrupt cause pcToSave info).csrs MSTATUS >>> 11) &&& 3 =
      m.priv ∧
    (initiateTrap m interrupt cause pcToSave info).priv = machineMode ∧
    (initiateTrap m interrupt cause pcToSave info).pc =
      (if interrupt ∧ csrValue m.csrs MTVEC % 4 = 1
       then (csrValue m.csrs MTVEC - csrValue m.csrs MTVEC % 4 + 4 * cause) % 2 ^ m.mxlen
       else csrValue m.csrs MTVEC - csrValue m.csrs MTVEC % 4) := by
  refine ⟨?_, ?_, ?_, ?_, ?_, ?_, ?_, ?_⟩ <;>
    simp +decide [initiateTrap, csrValue_rawSetCsr_self, csrValue_rawSetCsr_ne,
      mstatusTrapUpdate_mie_saved _ _ hW, mstatusTrapUpdate_mie_cleared _ _ hW,
      mstatusTrapUpdate_mpp _ _ hW hpriv]

theorem initiateTrap_state_update_witness :
    csrValue (initiateTrap mTrap true 7 64 51966).csrs MEPC = 64 ∧
    csrValue (initiateTrap mTrap true 7 64 51966).csrs MCAUSE = 0x80000007 ∧
    csrValue (initiateTrap mTrap true 7 64 51966).csrs MTVAL = 51966 ∧
    (csrValue (initiateTrap mTrap true 7 64 51966).csrs MSTATUS).testBit 7 = true ∧
    (csrValue (initiateTrap mTrap true 7 64 51966).csrs MSTATUS).testBit 3 = false ∧
    (csrValue (initiateTrap mTrap true 7 64 51966).csrs MSTATUS >>> 11) &&& 3 = 3 ∧
    (initiateTrap mTrap true 7 64 51966).priv = machineMode ∧
    (initiateTrap mTrap true 7 64 51966).pc = 0x9C :=
  initiateTrap_state_update mTrap true 7 64 51966 (by decide) (by decide)

end WdRiscv

namespace WdRiscv

/-! ### Signed-view lemmas shared by the M-extension theorems -/

theorem toSigned_min {W : Nat} (hW : 0 < W) :
    toSigned W (2 ^ (W - 1)) = -(2 ^ (W - 1) : Int) := by
  have hp : (2 : Int) ^ W = 2 ^ (W - 1) * 2 := by
    rw [← pow_succ]; congr 1; omega
  unfold toSigned
  rw [if_neg (lt_irrefl _)]
  push_cast
  omega

theorem toSigned_allOnes {W : Nat} (hW : 0 < W) :
    toSigned W (2 ^ W - 1) = -1 := by
  have hp : (2 : Nat) ^ W = 2 ^ (W - 1) * 2 := by
    rw [← pow_succ]; congr 1; omega
  have hpos : (0 : Nat) < 2 ^ (W - 1) := Nat.pos_pow_of_pos _ (by omega)
  unfold toSigned
  rw [if_neg (by omega)]
  have h1 : (1 : Nat) ≤ 2 ^ W := Nat.one_le_two_pow
  push_cast [h1]
  omega

theorem toSigned_emod {W a : Nat} : toSigned W a % (2 : Int) ^ W = (a : Int) % 2 ^ W := by
  unfold toSigned
  split
  · rfl
  · have : ((a : Int)) - 2 ^ W = a + (-1) * 2 ^ W := by ring
    rw [this, Int.add_mul_emod_self]

theorem toWord_cast {W : Nat} (x : Int) : ((toWord W x : Nat) : Int) = x % 2 ^ W := by
  unfold toWord
  rw [Int.toNat_of_nonneg (Int.emod_nonneg _ (by positivity))]

theorem toSigned_eq_min {W a : Nat} (hW : 0 < W)
    (h : toSigned W a = -(2 ^ (W - 1) : Int)) : a = 2 ^ (W - 1) := by
  have hpos : (0 : Nat) < 2 ^ (W - 1) := Nat.pos_pow_of_pos _ (by omega)
  unfold toSigned at h
  split at h
  · have : (0 : Int) ≤ a := Int.ofNat_nonneg a
    have : (0 : Int) < 2 ^ (W - 1) := by positivity
    omega
  · have hpInt : (2 : Int) ^ W = 2 ^ (W - 1) * 2 := by
      rw [← pow_succ]; congr 1; omega
    have : (a : Int) = 2 ^ (W - 1) := by linarith
    exact_mod_cast this

theorem toSigned_eq_neg_one {W a : Nat} (ha : a < 2 ^ W)
    (h : toSigned W a = -1) : a = 2 ^ W - 1 := by
  unfold toSigned at h
  split at h
  · have : (0 : Int) ≤ a := Int.ofNat_nonneg a
    omega
  · have h1 : (1 : Nat) ≤ 2 ^ W := Nat.one_le_two_pow
    have : (a : Int) = ((2 ^ W - 1 : Nat) : Int) := by
      rw [Nat.cast_sub h1]
      push_cast
      linarith
    exact_mod_cast this

/-- C2: the M-extension division and remainder semantics satisfy the RISC-V
edge cases and never trap: `div` by zero yields all ones (`2^W - 1`), `divu`
by zero yields `2^W - 1`, `rem` and `remu` by zero yield the dividend,
signed `div` of INT_MIN (`2^(W-1)` as unsigned) by -1 (`2^W - 1`) yields
INT_MIN, signed `rem` of INT_MIN by -1 yields 0, and none of the four
handlers touches the CSR file or the program counter. -/
theorem mext_edge_cases (W a : Nat) (hW : 0 < W) (ha : a < 2 ^ W) :
    divw W a 0 = 2 ^ W - 1 ∧
    divuw W a 0 = 2 ^ W - 1 ∧
    remw W a 0 = a ∧
    remuw W a 0 = a ∧
    divw W (2 ^ (W - 1)) (2 ^ W - 1) = 2 ^ (W - 1) ∧
    remw W (2 ^ (W - 1)) (2 ^ W - 1) = 0 ∧
    (∀ m rd rs1 rs2, (execDiv m rd rs1 rs2).csrs = m.csrs ∧ (execDiv m rd rs1 rs2).pc = m.pc) ∧
    (∀ m rd rs1 rs2, (execDivu m rd rs1 rs2).csrs = m.csrs ∧ (execDivu m rd rs1 rs2).pc = m.pc) ∧
    (∀ m rd rs1 rs2, (execRem m rd rs1 rs2).csrs = m.csrs ∧ (execRem m rd rs1 rs2).pc = m.pc) ∧
    (∀ m rd rs1 rs2, (execRemu m rd rs1 rs2).csrs = m.csrs ∧ (execRemu m rd rs1 rs2).pc = m.pc) := by
  have hb0 : 2 ^ W - 1 ≠ 0 := by
    have := Nat.one_lt_two_pow_iff (n := W)
    omega
  refine ⟨rfl, rfl, rfl, rfl, ?_, ?_,
    fun m rd rs1 rs2 => ⟨rfl, rfl⟩, fun m rd rs1 rs2 => ⟨rfl, rfl⟩,
    fun m rd rs1 rs2 => ⟨rfl, rfl⟩, fun m rd rs1 rs2 => ⟨rfl, rfl⟩⟩
  · simp [divw, hb0, toSigned_min hW, toSigned_allOnes hW]
  · simp [remw, hb0, toSigned_min hW, toSigned_allOnes hW]

theorem mext_edge_cases_witness :
    divw 32 7 0 = 2 ^ 32 - 1 ∧
    divuw 32 7 0 = 2 ^ 32 - 1 ∧
    remw 32 7 0 = 7 ∧
    remuw 32 7 0 = 7 ∧
    divw 32 (2 ^ 31) (2 ^ 32 - 1) = 2 ^ 31 ∧
    remw 32 (2 ^ 31) (2 ^ 32 - 1) = 0 ∧
    (∀ m rd rs1 rs2, (execDiv m rd rs1 rs2).csrs = m.csrs ∧ (execDiv m rd rs1 rs2).pc = m.pc) ∧
    (∀ m rd rs1 rs2, (execDivu m rd rs1 rs2).csrs = m.csrs ∧ (execDivu m rd rs1 rs2).pc = m.pc) ∧
    (∀ m rd rs1 rs2, (execRem m rd rs1 rs2).csrs = m.csrs ∧ (execRem m rd rs1 rs2).pc = m.pc) ∧
    (∀ m rd rs1 rs2, (execRemu m rd rs1 rs2).csrs = m.csrs ∧ (execRemu m rd rs1 rs2).pc = m.pc) :=
  mext_edge_cases 32 7 (by decide) (by decide)

/-- C8: for W-bit operands with a nonzero divisor, excluding the signed
overflow pair (INT_MIN, -1), the `div` and `rem` results satisfy
`a == (a/b)*b + (a%b)` in W-bit arithmetic. -/
theorem div_rem_identity (W a b : Nat) (hW : 0 < W) (ha : a < 2 ^ W) (hb : b < 2 ^ W)
    (hb0 : b ≠ 0) (hov : ¬(a = 2 ^ (W - 1) ∧ b = 2 ^ W - 1)) :
    (divw W a b * b + remw W a b) % 2 ^ W = a := by
  have hcond : ¬(toSigned W a = -(2 ^ (W - 1) : Int) ∧ toSigned W b = -1) := by
    rintro ⟨h1, h2⟩
    exact hov ⟨toSigned_eq_min hW h1, toSigned_eq_neg_one hb h2⟩
  have hdiv : divw W a b = toWord W ((toSigned W a).tdiv (toSigned W b)) := by
    simp [divw, hb0, hcond]
  have hrem : remw W a b = toWord W ((toSigned W a).tmod (toSigned W b)) := by
    simp [remw, hb0, hcond]
  rw [hdiv, hrem]
  have c1 : (toSigned W a).tdiv (toSigned W b) % 2 ^ W ≡
      (toSigned W a).tdiv (toSigned W b) [ZMOD (2 : Int) ^ W] :=
    Int.emod_emod_of_dvd _ dvd_rfl
  have c2 : (b : Int) ≡ toSigned W b [ZMOD (2 : Int) ^ W] := (toSigned_emod (W := W)).symm
  have c3 : (toSigned W a).tmod (toSigned W b) % 2 ^ W ≡
      (toSigned W a).tmod (toSigned W b) [ZMOD (2 : Int) ^ W] :=
    Int.emod_emod_of_dvd _ dvd_rfl
  have combined := (c1.mul c2).add c3
  rw [Int.tdiv_add_tmod'] at combined
  have hfin := combined.trans
    (show toSigned W a ≡ (a : Int) [ZMOD (2 : Int) ^ W] from toSigned_emod)
  have key : (((toWord W ((toSigned W a).tdiv (toSigned W b)) : Nat) : Int) * b +
      ((toWord W ((toSigned W a).tmod (toSigned W b)) : Nat) : Int)) % 2 ^ W = (a : Int) := by
    rw [toWord_cast, toWord_cast]
    have hme := hfin
    unfold Int.ModEq at hme
    rw [hme]
    exact Int.emod_eq_of_lt (Int.ofNat_nonneg a) (by exact_mod_cast ha)
  exact_mod_cast key

theorem div_rem_identity_witness :
    (divw 32 7 3 * 3 + remw 32 7 3) % 2 ^ 32 = 7 :=
  div_rem_identity 32 7 3 (by decide) (by decide) (by decide) (by decide) (by decide)

end WdRiscv

namespace WdRiscv

theorem and_wNot_or_and (W old v mask : Nat) (hm : mask < 2 ^ W) :
    ((old &&& wNot W mask) ||| (v &&& mask)) &&& wNot W mask = old &&& wNot W mask := by
  apply Nat.eq_of_testBit_eq
  intro i
  by_cases hiW : i < W
  · simp only [wNot, Nat.testBit_and, Nat.testBit_or, Nat.testBit_xor,
      Nat.testBit_two_pow_sub_one, hiW, decide_True]
    cases mask.testBit i <;> simp
  · have hmi : mask.testBit i = false :=
      Nat.testBit_lt_two_pow (lt_of_lt_of_le hm (Nat.pow_le_pow_right (by omega) (by omega)))
    simp [wNot, Nat.testBit_and, Nat.testBit_or, Nat.testBit_xor,
      Nat.testBit_two_pow_sub_one, hiW, hmi]

/-- C3: for every CSR write that the CSR file accepts, the stored value
afterwards equals `(old & ~writeMask) | (proposed & writeMask)`, and hence
the bits outside the write mask are unchanged:
`(post & ~mask) == (pre & ~mask)`. -/
theorem csr_write_masked (f : CsrFile) (W addr priv v : Nat) (g : CsrFile) (c : Csr)
    (hc : f addr = some c) (hw : csrWrite f W addr priv v = some g)
    (hm : c.writeMask < 2 ^ W) :
    csrValue g addr = (c.value &&& wNot W c.writeMask) ||| (v &&& c.writeMask) ∧
    csrValue g addr &&& wNot W c.writeMask = c.value &&& wNot W c.writeMask := by
  simp only [csrWrite, hc] at hw
  split at hw
  · exact absurd hw (by simp)
  · have hg : g = fun a =>
        if a = addr then
          some { c with value := (c.value &&& wNot W c.writeMask) ||| (v &&& c.writeMask) }
        else f a := by
      injection hw with h
      exact h.symm
    subst hg
    refine ⟨by simp [csrValue], ?_⟩
    simp only [csrValue, if_pos rfl]
    exact and_wNot_or_and W c.value v c.writeMask hm

theorem csr_write_masked_witness :
    csrValue csrFileC3post MSCRATCH = (0x1AA &&& wNot 32 0xFF) ||| (0x123 &&& 0xFF) ∧
    csrValue csrFileC3post MSCRATCH &&& wNot 32 0xFF = 0x1AA &&& wNot 32 0xFF :=
  csr_write_masked csrFileC3 32 MSCRATCH 3 0x123 csrFileC3post
    ⟨0x1AA, 0xFF, 0xFFFFFFFF, 3⟩ rfl rfl (by decide)

end WdRiscv

namespace WdRiscv

/-! ### Register-file zero hardwiring -/

theorem intWrite_zero_drop (regs : List Nat) (v : Nat) : intWrite regs 0 v = regs := by
  simp [intWrite]

theorem intRead_zero_intWrite (r : List Nat) (i v : Nat) :
    intRead (intWrite r i v) 0 = intRead r 0 := by
  unfold intWrite intRead
  split
  · rfl
  · rename_i h
    rcases r with _ | ⟨x, xs⟩
    · simp
    · cases i
      · exact absurd rfl h
      · simp

theorem execInstr_rd0_xregs (m : Machine) (i : Instr) (h : rdOf i = some 0) :
    (execInstr m i).xregs = m.xregs := by
  cases i <;> first
    | exact Option.noConfusion h
    | (simp only [rdOf, Option.some.injEq] at h
       subst h
       simp only [execInstr, execJalr, execJal, execLui, execAuipc, execAddi, execSlli,
         execSlti, execSltiu, execXori, execSrli, execSrai, execOri, execAndi, execAdd,
         execSub, execSll, execSlt, execSltu, execXor, execSrl, execSra, execOr, execAnd,
         execCsrrw, execCsrrs, execCsrrc, execCsrrwi, execCsrrsi, execCsrrci,
         execLb, execLh, execLw, execLbu, execLhu, execLwu, execLoad,
         execMul, execMulh, execMulhsu, execMulhu, execDiv, execDivu, execRem, execRemu,
         illegalInst, initiateException, initiateTrap, setReg]
       (repeat' split) <;> simp [intWrite])

theorem execInstr_x0_preserved (m : Machine) (i : Instr) :
    intRead (execInstr m i).xregs 0 = intRead m.xregs 0 := by
  cases i <;>
    simp only [execInstr, execBeq, execBne, execBlt, execBltu, execBge, execBgeu,
      branchTo, execJalr, execJal, execLui, execAuipc, execAddi, execSlli,
      execSlti, execSltiu, execXori, execSrli, execSrai, execOri, execAndi, execAdd,
      execSub, execSll, execSlt, execSltu, execXor, execSrl, execSra, execOr, execAnd,
      execEcall, execEbreak,
      execCsrrw, execCsrrs, execCsrrc, execCsrrwi, execCsrrsi, execCsrrci,
      execLb, execLh, execLw, execLbu, execLhu, execLwu, execLoad,
      execSb, execSh, execSw, execStore,
      execMul, execMulh, execMulhsu, execMulhu, execDiv, execDivu, execRem, execRemu,
      illegalInst, initiateException, initiateTrap, setReg] <;>
    (repeat' split) <;>
    simp [intRead_zero_intWrite]

/-- C4: writes to integer register 0 are silently dropped; consequently any
executed instruction whose destination register is 0 leaves the whole
register file unchanged, and every executed instruction preserves the
invariant that register 0 reads as zero. -/
theorem x0_write_is_noop :
    (∀ regs v, intWrite regs 0 v = regs) ∧
    (∀ (m : Machine) (i : Instr), rdOf i = some 0 → (execInstr m i).xregs = m.xregs) ∧
    (∀ (m : Machine) (i : Instr), intRead m.xregs 0 = 0 →
      intRead (execInstr m i).xregs 0 = 0) :=
  ⟨intWrite_zero_drop, execInstr_rd0_xregs,
   fun m i h => (execInstr_x0_preserved m i).trans h⟩

theorem x0_write_is_noop_witness :
    intWrite [3, 4] 0 7 = [3, 4] ∧
    (execInstr mC4 (.Addi 0 1 5)).xregs = mC4.xregs ∧
    intRead (execInstr mC4 (.Addi 0 1 5)).xregs 0 = 0 :=
  ⟨x0_write_is_noop.1 [3, 4] 7,
   x0_write_is_noop.2.1 mC4 (.Addi 0 1 5) rfl,
   x0_write_is_noop.2.2 mC4 (.Addi 0 1 5) rfl⟩

end WdRiscv

namespace WdRiscv

/-- C5: every 16-bit compressed encoding that expands yields exactly one
32-bit standard encoding with the same decoded and executed semantics
(decoding and executing a compressed word is expansion followed by the
32-bit path, so both agree whenever expansion succeeds); in particular
`0x4501` (`c.li x10, 0`) expands to `0x00000513` (`addi x10, x0, 0`),
decodes to that `addi`, and executes identically to it on every machine
state.  Non-vacuity across the C extension is pinned by one representative
of every RV32IMC form the expander recognizes — c.addi, c.li (positive and
negative), c.jal, c.j (positive and negative), c.beqz, c.bnez (positive
and negative), c.lui, c.addi16sp, c.srli, c.srai, c.andi, c.sub, c.xor,
c.or, c.and and c.slli, on top of the previously exercised c.addi4spn,
c.lw, c.sw, c.lwsp, c.jr, c.mv, c.jalr, c.add and c.swsp paths — each
decoding to its hand-computed standard instruction, while the reserved
encodings (all-zero word, `c.lwsp` with `rd = 0`, `c.jr` with `rs1 = 0`)
fail to expand. -/
theorem compressed_expansion_ok :
    (∀ c e W, expandInst c = some e → decode16 W c = decode32 W e) ∧
    (∀ (m : Machine) (c e : Nat), expandInst c = some e →
      execWord16 m c = execWord32 m e) ∧
    expandInst 0x4501 = some 0x00000513 ∧
    decode16 32 0x4501 = some (.Addi 10 0 0) ∧
    (∀ m : Machine, execWord16 m 0x4501 = execWord32 m 0x00000513) ∧
    decode16 32 0x0205 = some (.Addi 4 4 1) ∧
    decode16 32 0x557D = some (.Addi 10 0 (-1)) ∧
    decode16 32 0x2801 = some (.Jal 1 16) ∧
    decode16 32 0xA021 = some (.Jal 0 8) ∧
    decode16 32 0xBFFD = some (.Jal 0 (-2)) ∧
    decode16 32 0xC011 = some (.Beq 8 0 4) ∧
    decode16 32 0xE089 = some (.Bne 9 0 2) ∧
    decode16 32 0xFC7D = some (.Bne 8 0 (-2)) ∧
    decode16 32 0x6285 = some (.Lui 5 1) ∧
    decode16 32 0x6141 = some (.Addi 2 2 16) ∧
    decode16 32 0x8005 = some (.Srli 8 8 1) ∧
    decode16 32 0x8409 = some (.Srai 8 8 2) ∧
    decode16 32 0x880D = some (.Andi 8 8 3) ∧
    decode16 32 0x8C05 = some (.Sub 8 8 9) ∧
    decode16 32 0x8C25 = some (.Xor 8 8 9) ∧
    decode16 32 0x8C45 = some (.Or 8 8 9) ∧
    decode16 32 0x8C65 = some (.And 8 8 9) ∧
    decode16 32 0x0186 = some (.Slli 3 3 1) ∧
    expandInst 0x0000 = none ∧
    expandInst 0x4002 = none ∧
    expandInst 0x8002 = none := by
  refine ⟨?_, ?_, by decide, rfl, fun m => rfl, rfl, rfl, rfl, rfl, rfl, rfl, rfl, rfl,
    rfl, rfl, rfl, rfl, rfl, rfl, rfl, rfl, rfl, rfl, by decide, by decide, by decide⟩
  · intro c e W h
    simp [decode16, h]
  · intro m c e h
    simp [execWord16, h]

theorem compressed_expansion_ok_witness :
    decode16 32 0x4501 = decode32 32 0x00000513 ∧
    execWord16 mJal 0x4501 = execWord32 mJal 0x00000513 :=
  ⟨compressed_expansion_ok.1 0x4501 0x00000513 32 (by decide),
   compressed_expansion_ok.2.1 mJal 0x4501 0x00000513 (by decide)⟩

theorem initiateException_misaligned (m : Machine) (target : Nat) :
    misalignedTrapOk m (initiateException m INST_ADDR_MISALIGNED m.currPc target) target := by
  refine ⟨?_, ?_, ?_, ?_, ?_⟩ <;>
    simp +decide [misalignedTrapOk, initiateException, initiateTrap,
      csrValue_rawSetCsr_self, csrValue_rawSetCsr_ne, INST_ADDR_MISALIGNED]

theorem branchTo_misaligned (m : Machine) (target : Nat) (h : target % 2 ≠ 0) :
    misalignedTrapOk m (branchTo m target) target := by
  rw [branchTo, if_pos h]
  exact initiateException_misaligned m target

/-- C6: every taken branch or jump whose target (`currPc + offset` mod
`2^W`) is not 2-byte aligned raises INST_ADDR_MISALIGNED (cause 0) with the
target address in `mtval` and `currPc` in `mepc`, does not write the target
into `pc` (the new `pc` is the trap vector base `mtvec.BASE`), and writes
no register — for `jal` unconditionally, and for each of the six
conditional branches when its predicate holds.  (`jalr` clears the low
target bit by construction and so has no misaligned case.) -/
theorem ctrl_transfer_misaligned_target (m : Machine) (rd rs1 rs2 : Nat) (offset : Int)
    (h : toWord m.mxlen ((m.currPc : Int) + offset) % 2 ≠ 0) :
    misalignedTrapOk m (execJal m rd offset) (toWord m.mxlen ((m.currPc : Int) + offset)) ∧
    (readReg m rs1 = readReg m rs2 →
      misalignedTrapOk m (execBeq m rs1 rs2 offset)
        (toWord m.mxlen ((m.currPc : Int) + offset))) ∧
    (readReg m rs1 ≠ readReg m rs2 →
      misalignedTrapOk m (execBne m rs1 rs2 offset)
        (toWord m.mxlen ((m.currPc : Int) + offset))) ∧
    (sreadReg m rs1 < sreadReg m rs2 →
      misalignedTrapOk m (execBlt m rs1 rs2 offset)
        (toWord m.mxlen ((m.currPc : Int) + offset))) ∧
    (readReg m rs1 < readReg m rs2 →
      misalignedTrapOk m (execBltu m rs1 rs2 offset)
        (toWord m.mxlen ((m.currPc : Int) + offset))) ∧
    (sreadReg m rs2 ≤ sreadReg m rs1 →
      misalignedTrapOk m (execBge m rs1 rs2 offset)
        (toWord m.mxlen ((m.currPc : Int) + offset))) ∧
    (readReg m rs2 ≤ readReg m rs1 →
      misalignedTrapOk m (execBgeu m rs1 rs2 offset)
        (toWord m.mxlen ((m.currPc : Int) + offset))) := by
  have hb := branchTo_misaligned m (toWord m.mxlen ((m.currPc : Int) + offset)) h
  refine ⟨?_, fun ht => ?_, fun ht => ?_, fun ht => ?_, fun ht => ?_, fun ht => ?_,
    fun ht => ?_⟩
  · rw [execJal, if_pos h]
    exact initiateException_misaligned m _
  · rw [execBeq, if_pos ht]
    exact hb
  · rw [execBne, if_pos ht]
    exact hb
  · rw [execBlt, if_pos ht]
    exact hb
  · rw [execBltu, if_pos ht]
    exact hb
  · rw [execBge, if_pos ht]
    exact hb
  · rw [execBgeu, if_pos ht]
    exact hb

theorem ctrl_transfer_misaligned_target_witness :
    misalignedTrapOk mJal (execJal mJal 0 3) 3 ∧
    misalignedTrapOk mJal (execBeq mJal 1 2 3) 3 ∧
    misalignedTrapOk mJal (execBgeu mJal 1 2 3) 3 :=
  ⟨(ctrl_transfer_misaligned_target mJal 0 1 2 3 (by decide)).1,
   (ctrl_transfer_misaligned_target mJal 0 1 2 3 (by decide)).2.1 rfl,
   (ctrl_transfer_misaligned_target mJal 0 1 2 3 (by decide)).2.2.2.2.2.2 (by decide)⟩

/-- C7: every load handler (`lb`/`lh`/`lw`/`lbu`/`lhu`/`lwu`) routes
through the common `execLoad`, whose effective address is `x[rs1] + imm`
mod `2^W`; for any access width, an out-of-range access raises
LOAD_ACCESS_FAULT (cause 5) and an in-range misaligned access raises
LOAD_ADDR_MISALIGNED (cause 4), in both cases with the effective address in
`mtval` and `currPc` in `mepc`. -/
theorem load_fault_behavior (m : Machine) (rd rs1 : Nat) (imm : Int) (n : Nat)
    (signed : Bool) :
    (execLb m rd rs1 imm = execLoad m rd rs1 imm 1 true ∧
     execLh m rd rs1 imm = execLoad m rd rs1 imm 2 true ∧
     execLw m rd rs1 imm = execLoad m rd rs1 imm 4 true ∧
     execLbu m rd rs1 imm = execLoad m rd rs1 imm 1 false ∧
     execLhu m rd rs1 imm = execLoad m rd rs1 imm 2 false ∧
     execLwu m rd rs1 imm = execLoad m rd rs1 imm 4 false) ∧
    (m.mem.length < toWord m.mxlen ((readReg m rs1 : Int) + imm) + n →
      loadTrapOk m (execLoad m rd rs1 imm n signed)
        (toWord m.mxlen ((readReg m rs1 : Int) + imm)) LOAD_ACCESS_FAULT) ∧
    (¬ m.mem.length < toWord m.mxlen ((readReg m rs1 : Int) + imm) + n →
     toWord m.mxlen ((readReg m rs1 : Int) + imm) % n ≠ 0 →
      loadTrapOk m (execLoad m rd rs1 imm n signed)
        (toWord m.mxlen ((readReg m rs1 : Int) + imm)) LOAD_ADDR_MISALIGNED) := by
  refine ⟨⟨rfl, rfl, rfl, rfl, rfl, rfl⟩, ?_, ?_⟩
  · intro h
    refine ⟨?_, ?_, ?_⟩ <;>
      simp +decide [loadTrapOk, execLoad, memRead, h, initiateException, initiateTrap,
        csrValue_rawSetCsr_self, csrValue_rawSetCsr_ne, LOAD_ACCESS_FAULT]
  · intro h hali
    refine ⟨?_, ?_, ?_⟩ <;>
      simp +decide [loadTrapOk, execLoad, memRead, h, hali, initiateException, initiateTrap,
        csrValue_rawSetCsr_self, csrValue_rawSetCsr_ne, LOAD_ADDR_MISALIGNED]

theorem load_fault_behavior_witness :
    loadTrapOk mLw (execLoad mLw 2 1 0 4 true) 14 LOAD_ACCESS_FAULT ∧
    loadTrapOk mLw (execLoad mLw 2 1 (-1) 2 true) 13 LOAD_ADDR_MISALIGNED ∧
    execLw mLw 2 1 0 = execLoad mLw 2 1 0 4 true :=
  ⟨(load_fault_behavior mLw 2 1 0 4 true).2.1 (by decide),
   (load_fault_behavior mLw 2 1 (-1) 2 true).2.2 (by decide) (by decide),
   (load_fault_behavior mLw 2 1 0 4 true).1.2.2.1⟩

/-! ### Register write-then-read -/

theorem intRead_intWrite_self (r : List Nat) (i v : Nat) (h0 : i ≠ 0) (hl : i < r.length) :
    intRead (intWrite r i v) i = v := by
  simp [intWrite, intRead, h0, List.getD_eq_getElem?_getD, List.getElem?_set_self, hl]

/-- C9: `csrrs` and `csrrc` with `rs1 = 0`, and their immediate variants
with `uimm = 0`, skip the CSR write: the CSR file object is returned
untouched (so the CSR value is unchanged and there is no write side
effect), the program counter is not redirected, and the old CSR value is
read into `rd`. -/
theorem csr_set_clear_zero_skips_write (m : Machine) (rd csr old : Nat)
    (h : csrRead m.csrs csr m.priv = some old) :
    csrReadSkipOk m (execCsrrs m rd csr 0) csr old rd ∧
    csrReadSkipOk m (execCsrrc m rd csr 0) csr old rd ∧
    csrReadSkipOk m (execCsrrsi m rd csr 0) csr old rd ∧
    csrReadSkipOk m (execCsrrci m rd csr 0) csr old rd := by
  have mk : ∀ m' : Machine, m' = setReg m rd old → csrReadSkipOk m m' csr old rd := by
    intro m' hm'
    subst hm'
    refine ⟨rfl, rfl, rfl, fun h0 hl => ?_⟩
    simp [setReg, intRead_intWrite_self _ _ _ h0 hl]
  refine ⟨mk _ ?_, mk _ ?_, mk _ ?_, mk _ ?_⟩
  · simp [execCsrrs, h]
  · simp [execCsrrc, h]
  · simp [execCsrrsi, h]
  · simp [execCsrrci, h]

theorem csr_set_clear_zero_skips_write_witness :
    csrReadSkipOk mCsr (execCsrrs mCsr 3 MSCRATCH 0) MSCRATCH 0xAA 3 ∧
    csrReadSkipOk mCsr (execCsrrc mCsr 3 MSCRATCH 0) MSCRATCH 0xAA 3 ∧
    csrReadSkipOk mCsr (execCsrrsi mCsr 3 MSCRATCH 0) MSCRATCH 0xAA 3 ∧
    csrReadSkipOk mCsr (execCsrrci mCsr 3 MSCRATCH 0) MSCRATCH 0xAA 3 ∧
    intRead (execCsrrs mCsr 3 MSCRATCH 0).xregs 3 = 0xAA := by
  have h := csr_set_clear_zero_skips_write mCsr 3 MSCRATCH 0xAA rfl
  exact ⟨h.1, h.2.1, h.2.2.1, h.2.2.2, h.1.2.2.2 (by decide) (by decide)⟩

/-- C10: `peekIntReg` returns true and the value of register `ix` when `ix`
is in bounds, and returns false leaving the out-parameter unmodified when
`ix` is out of bounds (the hart state is never modified: the operation is a
pure observer). -/
theorem peekIntReg_bounds (m : Machine) (ix val : Nat) :
    (ix < m.xregs.length → peekIntReg m ix val = (true, intRead m.xregs ix)) ∧
    (¬ ix < m.xregs.length → peekIntReg m ix val = (false, val)) := by
  constructor <;> intro h <;> simp [peekIntReg, h]

theorem peekIntReg_bounds_witness :
    peekIntReg mC4 1 99 = (true, 5) ∧ peekIntReg mC4 40 99 = (false, 99) :=
  ⟨(peekIntReg_bounds mC4 1 99).1 (by decide),
   (peekIntReg_bounds mC4 40 99).2 (by decide)⟩

end WdRiscv
